import Mathlib

/-!
Verification of the fetch-and-format pipeline of `src/streamlit_app.py`
(a Streamlit client of the YouTube Data API).

The embedding models:
* `format_count`, `format_duration`, `format_published_date` — the three
  display formatters (lines 115–157 of the source);
* `get_channel_info` (lines 36–59) and `get_popular_videos` (lines 61–113) —
  the fetch pipeline, with the HTTP layer abstracted as explicit response
  arguments and the `st.error` user messages collected as an explicit list.

Machine integers of the source are Python arbitrary-precision integers, so
`Nat`/`Int` model them exactly.  Python `float` shows up only inside
`format_count` (true division `count / 10000` formatted with `:.1f`); it is
modelled exactly with integer arithmetic: `pyDoubleSig` rounds the rational
`n / d` to the nearest IEEE-754 binary64 value (round-to-nearest,
ties-to-even, 53-bit significand), and `pyFix1` is the Python
correctly-rounded one-decimal formatting of that value.
-/

namespace YT

/-! ## Rounding helpers for Python float division and formatting -/

/-- Round the nonnegative fraction `a / b` (with `b > 0`) to the nearest
integer, ties to even — the rounding used both by binary64 arithmetic and
by the correctly-rounded Python `%.1f` string formatting. -/
def roundHalfEvenNat (a b : ℕ) : ℕ :=
  let f := a / b
  let r := a % b
  if 2 * r < b then f
  else if b < 2 * r then f + 1
  else if f % 2 = 0 then f else f + 1

/-- `⌊log₂ n⌋` for `n ≥ 1`, by fuel-bounded halving (`n` halving steps
always suffice). -/
def log2Aux : ℕ → ℕ → ℕ
  | 0, _ => 0
  | fuel + 1, n => if n ≤ 1 then 0 else 1 + log2Aux fuel (n / 2)

/-- `⌊log₂ n⌋` for `n ≥ 1` (and `0` at `0`). -/
def log2floor (n : ℕ) : ℕ := log2Aux n n

/-- The IEEE-754 binary64 double nearest to `n / d`, for `n / d ≥ 1`
(the only range `format_count` divides in), as a pair
`(significand m, binade k)` whose value is `m · 2^k / 2^52` with
`m ∈ [2^52, 2^53)`: the significand is `n·2^52 / (d·2^k)` rounded to the
nearest integer, ties to even, carrying into the next binade when it
overflows to `2^53`. -/
def pyDoubleSig (n d : ℕ) : ℕ × ℕ :=
  let k := log2floor (n / d)
  let m := roundHalfEvenNat (n * 2 ^ 52) (d * 2 ^ k)
  if m = 2 ^ 53 then (2 ^ 52, k + 1) else (m, k)

/-- Model of the Python `f"{x:.1f}"` for the double `x` nearest to `n / d ≥ 1`:
format the multiple of one tenth nearest to `x` (ties to even) as
`"w.f"`. -/
def pyFix1 (n d : ℕ) : String :=
  let s := pyDoubleSig n d
  let t := roundHalfEvenNat (10 * s.1 * 2 ^ s.2) (2 ^ 52)
  toString (t / 10) ++ "." ++ toString (t % 10)

/-- Insert thousands separators into a reversed digit string
(helper for `pyComma`). -/
def commasRev : List Char → List Char
  | a :: b :: c :: d :: rest => a :: b :: c :: ',' :: commasRev (d :: rest)
  | l => l

/-- Model of the Python `f"{n:,}"`: decimal rendering with `,` thousands separators. -/
def pyComma (n : ℕ) : String :=
  ⟨(commasRev (toString n).data.reverse).reverse⟩

/-! ## `format_count` (source lines 115–121) -/

/-- `format_count` of the source: `.1f`-formatted hundreds of millions with
suffix `억` for `count ≥ 100000000`, `.1f`-formatted tens of thousands with
suffix `만` for `count ≥ 10000`, and comma-separated digits otherwise. -/
def format_count (count : ℕ) : String :=
  if count ≥ 100000000 then pyFix1 count 100000000 ++ "억"
  else if count ≥ 10000 then pyFix1 count 10000 ++ "만"
  else pyComma count

/-! ## `format_duration` (source lines 123–134)

The source extracts each component with
`int(re.search(r"(\d+)H", duration)[1]) if "H" in duration else 0`
(and likewise for `M` and `S`).  For the pattern `(\d+)H`, `re.search`
returns the leftmost match, which is the maximal run of consecutive
digits immediately preceding the first occurrence of `H` that has a digit
directly before it; when no occurrence of `H` is preceded by a digit,
`re.search` returns `None` and the subscript `[1]` raises (`TypeError`),
modelled by `Option.none` as the result of `format_duration`. -/

/-- Left-to-right scan implementing `re.search` of the pattern `(\d+)c`: `acc` holds
(reversed) the run of consecutive digits immediately before the current
position; reaching `c` with a nonempty run yields that run as the match
group. -/
def scanRun (c : Char) : List Char → List Char → Option (List Char)
  | _, [] => none
  | acc, x :: xs =>
    if x = c then
      if acc.isEmpty then scanRun c [] xs else some acc.reverse
    else if x.isDigit then scanRun c (x :: acc) xs
    else scanRun c [] xs

/-- The match group of the `re.search` of `(\d+)c` over `l`, if the pattern matches. -/
def findGroup (c : Char) (l : List Char) : Option (List Char) := scanRun c [] l

/-- Python `int` of a digit string. -/
def digitsVal (l : List Char) : ℕ :=
  l.foldl (fun a ch => a * 10 + (ch.toNat - 48)) 0

/-- One component extraction of `format_duration`:
`int(re.search(...)[1]) if c in duration else 0`;
`none` models the `TypeError` raised when `c` occurs but the pattern does
not match. -/
def compVal (c : Char) (l : List Char) : Option ℕ :=
  if c ∈ l then (findGroup c l).map digitsVal else some 0

/-- Python `f"{n:02d}"` for nonnegative `n`. -/
def pad2 (n : ℕ) : String :=
  if n < 10 then "0" ++ toString n else toString n

/-- `format_duration` of the source: extract the hour/minute/second
components and render `H:MM:SS` when hours are positive, `M:SS`
otherwise; `none` models the exception escaping when a component
extraction fails. -/
def format_duration (s : String) : Option String :=
  match compVal 'H' s.data, compVal 'M' s.data, compVal 'S' s.data with
  | some h, some m, some sec =>
    some (if h > 0 then toString h ++ ":" ++ pad2 m ++ ":" ++ pad2 sec
          else toString m ++ ":" ++ pad2 sec)
  | _, _, _ => none

/-! ## `format_published_date` (source lines 136–157)

`datetime` values are modelled by their timestamps in seconds (an
integer); `datetime.strptime(published_at, "%Y-%m-%dT%H:%M:%SZ")` yields
the timestamp `published`, and `datetime.utcnow()` the timestamp `now`,
here made an explicit argument.  `timedelta` normalization gives
`delta.days = ⌊total/86400⌋` (floor) and `delta.seconds =
total mod 86400 ∈ [0, 86400)`, which `Int.fdiv`/`Int.emod` model
exactly. -/

/-- `format_published_date` of the source, with the clock read
`datetime.utcnow()` as the explicit argument `now`. -/
def format_published_date (published now : ℤ) : String :=
  let total := now - published
  let days := total.fdiv 86400
  let seconds := total.emod 86400
  if days > 365 then toString (days.fdiv 365) ++ "년 전"
  else if days > 30 then toString (days.fdiv 30) ++ "개월 전"
  else if days > 0 then toString days ++ "일 전"
  else if seconds > 3600 then toString (seconds.fdiv 3600) ++ "시간 전"
  else if seconds > 60 then toString (seconds.fdiv 60) ++ "분 전"
  else "방금 전"

/-! ## Data model of the fetch pipeline

JSON responses are modelled structurally.  Required keys of a list item
(`item["id"]`, `item["snippet"]["title"]`, …) are plain fields — a response
missing one of them raises inside the `try` of `get_popular_videos` and is
covered by the failure case of the list response.  Keys read with `.get`
and a default are `Option` fields.  The HTTP + JSON layer of one request is
abstracted as an `Except String` value: `.error e` models any transport
error, `raise_for_status` on a non-success status, or a body that fails to
parse, with `e` the exception text. -/

/-- Model of `item["snippet"]` of a list item (all keys read with `[]`). -/
structure Snippet where
  title : String
  channelId : String
  channelTitle : String
  thumbnailMediumUrl : String
  publishedAt : String
deriving DecidableEq

/-- Model of `item["statistics"]` of a list item; each counter key is read with
`.get(·, 0)`, so presence is an `Option` (the numeric value models the
`int(...)` conversion). -/
structure Statistics where
  viewCount : Option ℕ
  likeCount : Option ℕ
  commentCount : Option ℕ
deriving DecidableEq

/-- Model of `item["contentDetails"]`; `duration` is read with `.get("duration", "PT0S")`. -/
structure ContentDetails where
  duration : Option String
deriving DecidableEq

/-- One element of `data["items"]` of the popular-videos list response. -/
structure Item where
  id : String
  snippet : Snippet
  statistics : Statistics
  contentDetails : ContentDetails
deriving DecidableEq

/-- `statistics` of a channel item; `subscriberCount` read with `.get`. -/
structure ChanStats where
  subscriberCount : Option ℕ
deriving DecidableEq

/-- `snippet` of a channel item; `thumbnailsDefaultUrl` collapses the
chain `snippet.get("thumbnails", {}).get("default", {}).get("url", "")`,
`none` meaning any level of it is missing. -/
structure ChanSnippet where
  thumbnailsDefaultUrl : Option String
deriving DecidableEq

/-- One element of `data["items"]` of a channel response; `statistics` and
`snippet` are read with `.get(·, {})`, `none` modelling the empty dict
(which is falsy in the `if channel_stats else 0` of the video assembly). -/
structure ChanItem where
  statistics : Option ChanStats
  snippet : Option ChanSnippet
deriving DecidableEq

/-- Parsed body of a channel response. -/
structure ChanResponse where
  items : List ChanItem
deriving DecidableEq

/-- The dict returned by `get_channel_info`:
`{"statistics": …, "snippet": …}`. -/
structure ChannelInfo where
  statistics : Option ChanStats
  snippet : Option ChanSnippet
deriving DecidableEq

/-- The `st.error` message of the `except` branch of `get_channel_info`. -/
def chanErrMsg (e : String) : String :=
  "채널 정보를 가져오는 중 오류 발생: " ++ e

/-- The `st.error` message of the `except` branch of `get_popular_videos`. -/
def listErrMsg (e : String) : String :=
  "YouTube API 오류가 발생했습니다: " ++ e

/-- `get_channel_info` (source lines 36–59): on success with a nonempty
item list, the statistics and snippet of the first item; on success with no
items, empty dicts; on any exception, an `st.error` message (collected in
the second component) and empty dicts. -/
def get_channel_info (resp : Except String ChanResponse) :
    ChannelInfo × List String :=
  match resp with
  | .error e => (⟨none, none⟩, [chanErrMsg e])
  | .ok r =>
    match r.items with
    | [] => (⟨none, none⟩, [])
    | item :: _ => (⟨item.statistics, item.snippet⟩, [])

/-- The normalized per-video dict appended to `videos`. -/
structure Video where
  id : String
  title : String
  channel : String
  channel_id : String
  thumbnail : String
  views : ℕ
  likes : ℕ
  comments : ℕ
  subscribers : ℕ
  published_at : String
  duration : String
  channel_thumbnail : String
deriving DecidableEq

/-- Assembly of one video dict (source lines 94–107) from a list item and
the channel info of its channel. -/
def mkVideo (item : Item) (info : ChannelInfo) : Video where
  id := item.id
  title := item.snippet.title
  channel := item.snippet.channelTitle
  channel_id := item.snippet.channelId
  thumbnail := item.snippet.thumbnailMediumUrl
  views := item.statistics.viewCount.getD 0
  likes := item.statistics.likeCount.getD 0
  comments := item.statistics.commentCount.getD 0
  subscribers :=
    match info.statistics with
    | none => 0
    | some cs => cs.subscriberCount.getD 0
  published_at := item.snippet.publishedAt
  duration := item.contentDetails.duration.getD "PT0S"
  channel_thumbnail :=
    match info.snippet with
    | none => ""
    | some sn => sn.thumbnailsDefaultUrl.getD ""

/-- Loop state of `get_popular_videos`: the accumulated `videos` list and
the `channel_cache` dict (an association list — keys are inserted only
when absent, so they stay unique), plus two observation traces: the
channel ids of the channel-info requests actually issued, and the
`st.error` messages emitted. -/
structure FetchState where
  videos : List Video
  cache : List (String × ChannelInfo)
  calls : List String
  errors : List String
deriving DecidableEq

/-- `channel_cache[channel_id]` lookup (`channel_id not in channel_cache`
is `lookupCache … = none`). -/
def lookupCache : List (String × ChannelInfo) → String → Option ChannelInfo
  | [], _ => none
  | (k, v) :: rest, key => if k = key then some v else lookupCache rest key

/-- One iteration of the `for item in data.get("items", [])` loop
(source lines 82–108): consult the cache, call `get_channel_info` on a
miss, and append the assembled video dict.  `chanResp` abstracts the
network: the response one channel-info request for the given id would
receive. -/
def processItem (chanResp : String → Except String ChanResponse)
    (st : FetchState) (item : Item) : FetchState :=
  let cid := item.snippet.channelId
  match lookupCache st.cache cid with
  | some info => { st with videos := st.videos ++ [mkVideo item info] }
  | none =>
    let r := get_channel_info (chanResp cid)
    { videos := st.videos ++ [mkVideo item r.1]
      cache := st.cache ++ [(cid, r.1)]
      calls := st.calls ++ [cid]
      errors := st.errors ++ r.2 }

/-- `get_popular_videos` (source lines 61–113).  `listResp` abstracts the
list request: `.ok items` holds the `items` of a parsed successful response
`items`, `.error e` any transport error, non-success status or unparsable
body.  The result is the returned `videos` list, together with the trace
of channel-info calls issued and the `st.error` messages emitted.  On a
list failure the `except` branch reports the error and returns `[]`. -/
def get_popular_videos (listResp : Except String (List Item))
    (chanResp : String → Except String ChanResponse) :
    List Video × List String × List String :=
  match listResp with
  | .error e => ([], [], [listErrMsg e])
  | .ok items =>
    let st := items.foldl (processItem chanResp) ⟨[], [], [], []⟩
    (st.videos, st.calls, st.errors)

/-- The `VideoRecord` sequence returned to the caller. -/
def fetchVideos (listResp : Except String (List Item))
    (chanResp : String → Except String ChanResponse) : List Video :=
  (get_popular_videos listResp chanResp).1

/-- The channel ids of the channel-info requests issued, in order. -/
def fetchCalls (listResp : Except String (List Item))
    (chanResp : String → Except String ChanResponse) : List String :=
  (get_popular_videos listResp chanResp).2.1

/-- The `st.error` messages emitted during the fetch, in order. -/
def fetchErrors (listResp : Except String (List Item))
    (chanResp : String → Except String ChanResponse) : List String :=
  (get_popular_videos listResp chanResp).2.2

/-! ## Characterization of the fetch loop -/

/-- The channel info a fresh channel-info request for `k` would produce. -/
def infoOf (chanResp : String → Except String ChanResponse) (k : String) :
    ChannelInfo :=
  (get_channel_info (chanResp k)).1

/-- Cache invariant: every cached entry is what a fresh request would
produce. -/
def CacheOK (chanResp : String → Except String ChanResponse)
    (cache : List (String × ChannelInfo)) : Prop :=
  ∀ p ∈ cache, p.2 = infoOf chanResp p.1

theorem lookupCache_eq_some_mem {cache : List (String × ChannelInfo)}
    {key : String} {v : ChannelInfo} (h : lookupCache cache key = some v) :
    (key, v) ∈ cache := by
  induction cache with
  | nil => exact absurd h (by simp [lookupCache])
  | cons p rest ih =>
    obtain ⟨k, w⟩ := p
    by_cases hk : k = key
    · subst hk
      rw [lookupCache, if_pos rfl] at h
      obtain rfl : w = v := by injection h
      exact List.mem_cons_self _ _
    · rw [lookupCache, if_neg hk] at h
      exact List.mem_cons_of_mem _ (ih h)

theorem lookupCache_eq_none_iff {cache : List (String × ChannelInfo)}
    {key : String} :
    lookupCache cache key = none ↔ key ∉ cache.map Prod.fst := by
  induction cache with
  | nil => simp [lookupCache]
  | cons p rest ih =>
    obtain ⟨k, w⟩ := p
    by_cases hk : k = key
    · subst hk
      simp [lookupCache]
    · rw [lookupCache, if_neg hk, ih]
      simp only [List.map_cons, List.mem_cons]
      constructor
      · intro h hc
        rcases hc with hc | hc
        · exact hk hc.symm
        · exact h hc
      · intro h hc
        exact h (Or.inr hc)

/-- Unfolding `processItem` on a cache hit. -/
theorem processItem_hit {f : String → Except String ChanResponse}
    {st : FetchState} {item : Item} {info : ChannelInfo}
    (hl : lookupCache st.cache item.snippet.channelId = some info) :
    processItem f st item = { st with videos := st.videos ++ [mkVideo item info] } := by
  simp [processItem, hl]

/-- Unfolding `processItem` on a cache miss. -/
theorem processItem_miss {f : String → Except String ChanResponse}
    {st : FetchState} {item : Item}
    (hl : lookupCache st.cache item.snippet.channelId = none) :
    processItem f st item =
      { videos := st.videos ++ [mkVideo item (infoOf f item.snippet.channelId)]
        cache := st.cache ++ [(item.snippet.channelId, infoOf f item.snippet.channelId)]
        calls := st.calls ++ [item.snippet.channelId]
        errors := st.errors ++ (get_channel_info (f item.snippet.channelId)).2 } := by
  simp [processItem, hl, infoOf]

/-- The loop appends exactly one video per item, each assembled from the
item and the channel info a fresh request for its channel would
produce. -/
theorem foldl_videos {f : String → Except String ChanResponse} :
    ∀ (items : List Item) (st : FetchState), CacheOK f st.cache →
      (items.foldl (processItem f) st).videos =
        st.videos ++
          items.map (fun it => mkVideo it (infoOf f it.snippet.channelId)) := by
  intro items
  induction items with
  | nil => intro st _; simp
  | cons item rest ih =>
    intro st h
    rw [List.foldl_cons]
    cases hl : lookupCache st.cache item.snippet.channelId with
    | some info =>
      have hinfo := h _ (lookupCache_eq_some_mem hl)
      simp only at hinfo
      rw [processItem_hit hl,
        ih { st with videos := st.videos ++ [mkVideo item info] } h, hinfo]
      simp
    | none =>
      have hok : CacheOK f
          (st.cache ++ [(item.snippet.channelId, infoOf f item.snippet.channelId)]) := by
        intro p hp
        simp only [List.mem_append, List.mem_singleton] at hp
        rcases hp with hp | hp
        · exact h p hp
        · subst hp
          rfl
      rw [processItem_miss hl,
        ih { videos := st.videos ++ [mkVideo item (infoOf f item.snippet.channelId)]
             cache := st.cache ++ [(item.snippet.channelId, infoOf f item.snippet.channelId)]
             calls := st.calls ++ [item.snippet.channelId]
             errors := st.errors ++ (get_channel_info (f item.snippet.channelId)).2 } hok]
      simp

/-- First occurrences of `ids` whose value is not already in `seen`
(the ids the cache-miss branch fires on). -/
def newIds : List String → List String → List String
  | _, [] => []
  | seen, x :: xs =>
    if x ∈ seen then newIds seen xs else x :: newIds (seen ++ [x]) xs

/-- Cache keys and call trace of the loop both extend by exactly the
first occurrences of channel ids not already cached. -/
theorem foldl_calls_keys {f : String → Except String ChanResponse} :
    ∀ (items : List Item) (st : FetchState),
      (items.foldl (processItem f) st).cache.map Prod.fst =
          st.cache.map Prod.fst ++
            newIds (st.cache.map Prod.fst) (items.map (·.snippet.channelId)) ∧
      (items.foldl (processItem f) st).calls =
          st.calls ++
            newIds (st.cache.map Prod.fst) (items.map (·.snippet.channelId)) := by
  intro items
  induction items with
  | nil => intro st; simp [newIds]
  | cons item rest ih =>
    intro st
    rw [List.foldl_cons]
    cases hl : lookupCache st.cache item.snippet.channelId with
    | some info =>
      have hmem : item.snippet.channelId ∈ st.cache.map Prod.fst := by
        by_contra hc
        rw [← lookupCache_eq_none_iff] at hc
        rw [hl] at hc
        cases hc
      rw [processItem_hit hl]
      simp only [List.map_cons, newIds, if_pos hmem]
      exact ih _
    | none =>
      have hmem : item.snippet.channelId ∉ st.cache.map Prod.fst :=
        lookupCache_eq_none_iff.mp hl
      rw [processItem_miss hl]
      simp only [List.map_cons, newIds, if_neg hmem]
      obtain ⟨hk, hc⟩ := ih
        { videos := st.videos ++ [mkVideo item (infoOf f item.snippet.channelId)]
          cache := st.cache ++ [(item.snippet.channelId, infoOf f item.snippet.channelId)]
          calls := st.calls ++ [item.snippet.channelId]
          errors := st.errors ++ (get_channel_info (f item.snippet.channelId)).2 }
      constructor
      · simpa using hk
      · simpa using hc

/-- Success-path characterization of the returned video list. -/
theorem fetchVideos_ok (items : List Item)
    (f : String → Except String ChanResponse) :
    fetchVideos (.ok items) f =
      items.map (fun it => mkVideo it (infoOf f it.snippet.channelId)) := by
  have h := foldl_videos (f := f) items ⟨[], [], [], []⟩ (by intro p hp; cases hp)
  simpa [fetchVideos, get_popular_videos] using h

/-- Success-path characterization of the channel-info call trace. -/
theorem fetchCalls_ok (items : List Item)
    (f : String → Except String ChanResponse) :
    fetchCalls (.ok items) f = newIds [] (items.map (·.snippet.channelId)) := by
  have h := (foldl_calls_keys (f := f) items ⟨[], [], [], []⟩).2
  simpa [fetchCalls, get_popular_videos] using h

theorem newIds_nodup_subset :
    ∀ (ids seen : List String),
      (newIds seen ids).Nodup ∧
        ∀ x ∈ newIds seen ids, x ∈ ids ∧ x ∉ seen := by
  intro ids
  induction ids with
  | nil => intro seen; simp [newIds]
  | cons y ys ih =>
    intro seen
    by_cases hy : y ∈ seen
    · obtain ⟨h1, h2⟩ := ih seen
      refine ⟨by simp [newIds, hy, h1], ?_⟩
      intro x hx
      rw [newIds, if_pos hy] at hx
      obtain ⟨hx1, hx2⟩ := h2 x hx
      exact ⟨List.mem_cons_of_mem _ hx1, hx2⟩
    · obtain ⟨h1, h2⟩ := ih (seen ++ [y])
      constructor
      · rw [newIds, if_neg hy]
        refine List.nodup_cons.mpr ⟨?_, h1⟩
        intro hmem
        have := (h2 y hmem).2
        simp at this
      · intro x hx
        rw [newIds, if_neg hy] at hx
        rcases List.mem_cons.mp hx with hx | hx
        · subst hx
          exact ⟨List.mem_cons_self _ _, hy⟩
        · obtain ⟨hx1, hx2⟩ := h2 x hx
          refine ⟨List.mem_cons_of_mem _ hx1, ?_⟩
          intro hc
          exact hx2 (by simp [hc])

/-! ## Claim scenarios -/

/-- Channel-info network behaviour in which the request for channel `c`
fails with cause `e` and every other channel answers as under `f`. -/
def failOn (c e : String) (f : String → Except String ChanResponse) :
    String → Except String ChanResponse :=
  fun k => if k = c then .error e else f k

/-- A concrete well-formed list item with the given video and channel ids
and no optional statistics. -/
def exItem (vid ch : String) : Item where
  id := vid
  snippet :=
    { title := "t", channelId := ch, channelTitle := "ct"
      thumbnailMediumUrl := "u", publishedAt := "2024-01-01T00:00:00Z" }
  statistics := { viewCount := none, likeCount := none, commentCount := none }
  contentDetails := { duration := none }

/-- A concrete channel-info network that always fails. -/
def exChanFail : String → Except String ChanResponse :=
  fun _ => .error "boom"

/-! ## Claims about the fetch pipeline -/

/-- C1: when the popular-videos list request fails (transport error,
non-success status, or unparsable body, all modelled by the `.error` case),
`get_popular_videos` returns zero video records, reports exactly one
failure message carrying the underlying cause, and issues no channel-info
calls — no partial sequence of records is returned. -/
theorem c1_list_failure_total_abort (e : String)
    (f : String → Except String ChanResponse) :
    fetchVideos (.error e) f = [] ∧
    fetchErrors (.error e) f = [listErrMsg e] ∧
    fetchCalls (.error e) f = [] :=
  ⟨rfl, rfl, rfl⟩

/-- C2: if the channel-info lookup fails for channel `c`, the pipeline
still returns one record per list item; the records of the failed channel
carry `subscribers = 0` and an empty channel thumbnail, and every record
of any other channel equals the record of the run where `c` succeeds —
the failure never becomes a pipeline-level failure. -/
theorem c2_channel_failure_degrades_gracefully
    (items : List Item) (f : String → Except String ChanResponse)
    (c e : String) (i : ℕ) (hi : i < items.length)
    (hb : i < (fetchVideos (.ok items) (failOn c e f)).length)
    (hg : i < (fetchVideos (.ok items) f).length) :
    (fetchVideos (.ok items) (failOn c e f)).length = items.length ∧
    ((items.get ⟨i, hi⟩).snippet.channelId = c →
      ((fetchVideos (.ok items) (failOn c e f)).get ⟨i, hb⟩).subscribers = 0 ∧
      ((fetchVideos (.ok items) (failOn c e f)).get ⟨i, hb⟩).channel_thumbnail = "") ∧
    ((items.get ⟨i, hi⟩).snippet.channelId ≠ c →
      (fetchVideos (.ok items) (failOn c e f)).get ⟨i, hb⟩ =
        (fetchVideos (.ok items) f).get ⟨i, hg⟩) := by
  refine ⟨by rw [fetchVideos_ok]; simp, ?_, ?_⟩
  · intro hc
    have hv : (fetchVideos (.ok items) (failOn c e f)).get ⟨i, hb⟩ =
        mkVideo (items.get ⟨i, hi⟩)
          (infoOf (failOn c e f) (items.get ⟨i, hi⟩).snippet.channelId) := by
      simp [fetchVideos_ok, List.get_eq_getElem, List.getElem_map]
    rw [hv, hc]
    constructor
    · simp [mkVideo, infoOf, failOn, get_channel_info]
    · simp [mkVideo, infoOf, failOn, get_channel_info]
  · intro hc
    have hv : (fetchVideos (.ok items) (failOn c e f)).get ⟨i, hb⟩ =
        mkVideo (items.get ⟨i, hi⟩)
          (infoOf (failOn c e f) (items.get ⟨i, hi⟩).snippet.channelId) := by
      simp [fetchVideos_ok, List.get_eq_getElem, List.getElem_map]
    have hv' : (fetchVideos (.ok items) f).get ⟨i, hg⟩ =
        mkVideo (items.get ⟨i, hi⟩)
          (infoOf f (items.get ⟨i, hi⟩).snippet.channelId) := by
      simp [fetchVideos_ok, List.get_eq_getElem, List.getElem_map]
    rw [hv, hv']
    have : infoOf (failOn c e f) (items.get ⟨i, hi⟩).snippet.channelId =
        infoOf f (items.get ⟨i, hi⟩).snippet.channelId := by
      simp only [List.get_eq_getElem] at hc
      simp [infoOf, failOn, if_neg hc]
    rw [this]

/-- C2 witness: a two-item response over channels `a` and `b` where the
lookup of channel `a` fails. -/
theorem c2_witness :
    0 < ([exItem "v1" "a", exItem "v2" "b"] : List Item).length ∧
    (fetchVideos (.ok [exItem "v1" "a", exItem "v2" "b"])
        (failOn "a" "boom" (fun _ => .ok ⟨[]⟩))).length = 2 := by
  refine ⟨by decide, ?_⟩
  have h := c2_channel_failure_degrades_gracefully
    [exItem "v1" "a", exItem "v2" "b"] (fun _ => .ok ⟨[]⟩) "a" "boom" 0
    (by decide) (by decide) (by decide)
  exact h.1

/-- C3: the number of channel-info calls a fetch issues is at most the
number of distinct channel ids among the returned items; and on the
concrete three-item response where two items share channel `a` and one
has channel `b`, exactly the two calls `a`, `b` are issued, whatever the
channel endpoint answers. -/
theorem c3_calls_bounded_by_distinct_channels :
    (∀ (items : List Item) (f : String → Except String ChanResponse),
        (fetchCalls (.ok items) f).length ≤
          (items.map (·.snippet.channelId)).toFinset.card) ∧
    (∀ f : String → Except String ChanResponse,
        fetchCalls (.ok [exItem "v1" "a", exItem "v2" "a", exItem "v3" "b"]) f =
          ["a", "b"]) := by
  constructor
  · intro items f
    rw [fetchCalls_ok]
    obtain ⟨hnd, hsub⟩ :=
      newIds_nodup_subset (items.map (·.snippet.channelId)) []
    rw [← List.toFinset_card_of_nodup hnd]
    apply Finset.card_le_card
    intro a ha
    rw [List.mem_toFinset] at ha ⊢
    exact (hsub a ha).1
  · intro f
    rw [fetchCalls_ok]
    rfl

/-- C8: on a successful list response, every record defaults each omitted
numeric statistic to `0` (view, like and comment counts omitted from the
item; subscriber count omitted from — or absent with — the channel
response) and an omitted duration to the sentinel `PT0S`. -/
theorem c8_omitted_fields_normalize_to_defaults
    (items : List Item) (f : String → Except String ChanResponse)
    (i : ℕ) (hi : i < items.length)
    (hv : i < (fetchVideos (.ok items) f).length) :
    ((items.get ⟨i, hi⟩).statistics.viewCount = none →
      ((fetchVideos (.ok items) f).get ⟨i, hv⟩).views = 0) ∧
    ((items.get ⟨i, hi⟩).statistics.likeCount = none →
      ((fetchVideos (.ok items) f).get ⟨i, hv⟩).likes = 0) ∧
    ((items.get ⟨i, hi⟩).statistics.commentCount = none →
      ((fetchVideos (.ok items) f).get ⟨i, hv⟩).comments = 0) ∧
    ((infoOf f (items.get ⟨i, hi⟩).snippet.channelId).statistics = none →
      ((fetchVideos (.ok items) f).get ⟨i, hv⟩).subscribers = 0) ∧
    (∀ cs, (infoOf f (items.get ⟨i, hi⟩).snippet.channelId).statistics = some cs →
      cs.subscriberCount = none →
      ((fetchVideos (.ok items) f).get ⟨i, hv⟩).subscribers = 0) ∧
    ((items.get ⟨i, hi⟩).contentDetails.duration = none →
      ((fetchVideos (.ok items) f).get ⟨i, hv⟩).duration = "PT0S") := by
  have hv' : (fetchVideos (.ok items) f).get ⟨i, hv⟩ =
      mkVideo (items.get ⟨i, hi⟩)
        (infoOf f (items.get ⟨i, hi⟩).snippet.channelId) := by
    simp [fetchVideos_ok, List.get_eq_getElem, List.getElem_map]
  rw [hv']
  refine ⟨?_, ?_, ?_, ?_, ?_, ?_⟩
  · intro h; simp only [List.get_eq_getElem] at h; simp [mkVideo, h]
  · intro h; simp only [List.get_eq_getElem] at h; simp [mkVideo, h]
  · intro h; simp only [List.get_eq_getElem] at h; simp [mkVideo, h]
  · intro h; simp only [List.get_eq_getElem] at h; simp [mkVideo, h]
  · intro cs h1 h2
    simp only [List.get_eq_getElem] at h1
    simp [mkVideo, h1, h2]
  · intro h; simp only [List.get_eq_getElem] at h; simp [mkVideo, h]

/-- C8 witness: a one-item response with every optional field missing,
over a channel endpoint that answers with an empty statistics dict. -/
theorem c8_witness :
    ((exItem "v" "a").statistics.viewCount = none →
      ((fetchVideos (.ok [exItem "v" "a"]) exChanFail).get ⟨0, by decide⟩).views = 0) ∧
    ((exItem "v" "a").contentDetails.duration = none →
      ((fetchVideos (.ok [exItem "v" "a"]) exChanFail).get ⟨0, by decide⟩).duration = "PT0S") := by
  have h := c8_omitted_fields_normalize_to_defaults [exItem "v" "a"] exChanFail 0
    (by decide) (by decide)
  exact ⟨h.1, h.2.2.2.2.2⟩

/-- C9: a successful fetch returns exactly one record per response item,
and the record at each position is built from the item at the same
position — the upstream ordering is preserved and nothing is re-sorted. -/
theorem c9_one_record_per_item_in_order
    (items : List Item) (f : String → Except String ChanResponse) :
    (fetchVideos (.ok items) f).length = items.length ∧
    ∀ (i : ℕ) (hi : i < items.length)
      (hv : i < (fetchVideos (.ok items) f).length),
      ((fetchVideos (.ok items) f).get ⟨i, hv⟩).id = (items.get ⟨i, hi⟩).id := by
  constructor
  · rw [fetchVideos_ok]; simp
  · intro i hi hv
    have hv' : (fetchVideos (.ok items) f).get ⟨i, hv⟩ =
        mkVideo (items.get ⟨i, hi⟩)
          (infoOf f (items.get ⟨i, hi⟩).snippet.channelId) := by
      simp [fetchVideos_ok, List.get_eq_getElem, List.getElem_map]
    rw [hv']
    rfl

/-- C9 witness: order preservation checked on a concrete two-item
response. -/
theorem c9_witness :
    (fetchVideos (.ok [exItem "v1" "a", exItem "v2" "b"]) exChanFail).length = 2 ∧
    ((fetchVideos (.ok [exItem "v1" "a", exItem "v2" "b"]) exChanFail).get
        ⟨1, by decide⟩).id = "v2" := by
  have h := c9_one_record_per_item_in_order
    [exItem "v1" "a", exItem "v2" "b"] exChanFail
  exact ⟨h.1, h.2 1 (by decide) (by decide)⟩

/-! ## Claims about the formatters -/

/-- C5: `format_count` renders values of at least `100000000` as the
one-decimal float `n / 100000000` with suffix `억`, values of at least
`10000` as the one-decimal float `n / 10000` with suffix `만`, and smaller
values with thousands separators; with the stated concrete examples. -/
theorem c5_format_count_rendering :
    (∀ n : ℕ, 100000000 ≤ n → format_count n = pyFix1 n 100000000 ++ "억") ∧
    (∀ n : ℕ, n < 100000000 → 10000 ≤ n →
        format_count n = pyFix1 n 10000 ++ "만") ∧
    (∀ n : ℕ, n < 10000 → format_count n = pyComma n) ∧
    format_count 0 = "0" ∧
    format_count 9999 = "9,999" ∧
    format_count 15000 = "1.5만" ∧
    format_count 250000000 = "2.5억" := by
  refine ⟨?_, ?_, ?_, by decide, by decide, by decide, by decide⟩
  · intro n h
    unfold format_count
    rw [if_pos h]
  · intro n h1 h2
    unfold format_count
    rw [if_neg (by omega), if_pos h2]
  · intro n h
    unfold format_count
    rw [if_neg (by omega), if_neg (by omega)]

/-- C5 witness: the three branch shapes at concrete inputs. -/
theorem c5_witness :
    format_count 123456789 = pyFix1 123456789 100000000 ++ "억" ∧
    format_count 15000 = pyFix1 15000 10000 ++ "만" ∧
    format_count 9999 = pyComma 9999 :=
  ⟨c5_format_count_rendering.1 123456789 (by decide),
   c5_format_count_rendering.2.1 15000 (by decide) (by decide),
   c5_format_count_rendering.2.2.1 9999 (by decide)⟩

/-- C6: whenever the three component extractions succeed (`h`, `m`, `sec`,
an absent letter giving `0`), `format_duration` renders `H:MM:SS` with
unpadded hours when `h > 0` and `M:SS` otherwise, minutes and seconds
zero-padded to two digits; a string containing none of `H`, `M`, `S`
renders as `0:00`; with the stated concrete examples. -/
theorem c6_format_duration_rendering :
    (∀ (s : String) (h m sec : ℕ),
        compVal 'H' s.data = some h → compVal 'M' s.data = some m →
        compVal 'S' s.data = some sec →
        format_duration s =
          some (if h > 0 then toString h ++ ":" ++ pad2 m ++ ":" ++ pad2 sec
                else toString m ++ ":" ++ pad2 sec)) ∧
    (∀ s : String, 'H' ∉ s.data → 'M' ∉ s.data → 'S' ∉ s.data →
        format_duration s = some "0:00") ∧
    format_duration "PT0S" = some "0:00" ∧
    format_duration "PT5M30S" = some "5:30" ∧
    format_duration "PT1H2M3S" = some "1:02:03" ∧
    format_duration "PT45S" = some "0:45" := by
  have hmain : ∀ (s : String) (h m sec : ℕ),
      compVal 'H' s.data = some h → compVal 'M' s.data = some m →
      compVal 'S' s.data = some sec →
      format_duration s =
        some (if h > 0 then toString h ++ ":" ++ pad2 m ++ ":" ++ pad2 sec
              else toString m ++ ":" ++ pad2 sec) := by
    intro s h m sec hh hm hs
    unfold format_duration
    rw [hh, hm, hs]
  refine ⟨hmain, ?_, by decide, by decide, by decide, by decide⟩
  intro s hH hM hS
  have h := hmain s 0 0 0 (by simp [compVal, hH]) (by simp [compVal, hM])
    (by simp [compVal, hS])
  rw [h]
  rfl

/-- C6 witness: the general rendering applied at a concrete duration with
hours only. -/
theorem c6_witness :
    format_duration "PT2H" =
      some (if 2 > 0 then toString 2 ++ ":" ++ pad2 0 ++ ":" ++ pad2 0
            else toString 0 ++ ":" ++ pad2 0) ∧
    format_duration "XYZ" = some "0:00" :=
  ⟨c6_format_duration_rendering.1 "PT2H" 2 0 0 (by decide) (by decide) (by decide),
   c6_format_duration_rendering.2.1 "XYZ" (by decide) (by decide) (by decide)⟩

/-- C7: `format_published_date` buckets the single delta `now - published`
largest unit first — whole days by floor division for years, months and
days, then the remainder seconds for hours and minutes — showing exactly
one unit; with the stated concrete examples (400 days, 40 days, 5 days,
2 hours, 10 seconds). -/
theorem c7_relative_time_bucketing :
    (∀ published now : ℤ,
        format_published_date published now =
          (let days := (now - published).fdiv 86400
           let seconds := (now - published).emod 86400
           if days > 365 then toString (days.fdiv 365) ++ "년 전"
           else if days > 30 then toString (days.fdiv 30) ++ "개월 전"
           else if days > 0 then toString days ++ "일 전"
           else if seconds > 3600 then toString (seconds.fdiv 3600) ++ "시간 전"
           else if seconds > 60 then toString (seconds.fdiv 60) ++ "분 전"
           else "방금 전")) ∧
    format_published_date 0 (400 * 86400) = "1년 전" ∧
    format_published_date 0 (40 * 86400) = "1개월 전" ∧
    format_published_date 0 (5 * 86400) = "5일 전" ∧
    format_published_date 0 7200 = "2시간 전" ∧
    format_published_date 0 10 = "방금 전" :=
  ⟨fun _ _ => rfl, by decide, by decide, by decide, by decide, by decide⟩

/-! ## Domain of `format_duration` (claim C10) -/

/-- Scan helper: some occurrence of `c` in the list is immediately
preceded by a digit, given whether the character just before the list was
a digit. -/
def hdbAux (c : Char) : Bool → List Char → Bool
  | _, [] => false
  | prev, x :: xs => (prev && (x == c)) || hdbAux c x.isDigit xs

/-- Some occurrence of `c` in `l` is immediately preceded by a digit
(exactly the condition for the pattern `(\d+)c` to match somewhere). -/
def hasDigitBefore (c : Char) (l : List Char) : Bool := hdbAux c false l

/-- Scan helper: every occurrence of `c` in the list is immediately
preceded by a digit, given whether the character just before the list was
a digit. -/
def allOccAux (c : Char) : Bool → List Char → Bool
  | _, [] => true
  | prev, x :: xs => (!(x == c) || prev) && allOccAux c x.isDigit xs

/-- Every occurrence of `c` in `l` is immediately preceded by at least one
digit. -/
def allOccPreceded (c : Char) (l : List Char) : Bool := allOccAux c false l

/-- The scan of the pattern succeeds exactly when some occurrence of `c`
has a digit directly before it. -/
theorem scanRun_isSome {c : Char} (hc : c.isDigit = false) :
    ∀ (l acc : List Char),
      (scanRun c acc l).isSome = hdbAux c (!acc.isEmpty) l := by
  intro l
  induction l with
  | nil => intro acc; rfl
  | cons x xs ih =>
    intro acc
    by_cases hx : x = c
    · subst hx
      cases acc with
      | nil =>
        have h1 : scanRun x [] (x :: xs) = scanRun x [] xs := by
          rw [scanRun, if_pos rfl]
          exact if_pos rfl
        rw [h1]
        simp only [List.isEmpty_nil, Bool.not_true, hdbAux, Bool.false_and,
          Bool.false_or, hc]
        exact ih []
      | cons a as =>
        have h1 : scanRun x (a :: as) (x :: xs) = some (a :: as).reverse := by
          rw [scanRun, if_pos rfl]
          exact if_neg (by simp)
        rw [h1]
        simp [hdbAux]
    · rw [scanRun, if_neg hx]
      by_cases hd : x.isDigit
      · rw [if_pos hd]
        have := ih (x :: acc)
        simp only [List.isEmpty_cons, Bool.not_false] at this
        rw [this, hdbAux, hd]
        have hxc : (x == c) = false := by
          simp [hx]
        rw [hxc]
        simp
      · rw [if_neg hd]
        have := ih []
        simp only [List.isEmpty_nil, Bool.not_true] at this
        rw [this, hdbAux]
        have hxc : (x == c) = false := by
          simp [hx]
        rw [hxc]
        have hd' : x.isDigit = false := by
          simp [hd]
        rw [hd']
        simp

/-- When every occurrence of `c` is preceded by a digit and `c` occurs at
all, some occurrence of `c` is preceded by a digit. -/
theorem allOccAux_mem_hdbAux {c : Char} :
    ∀ (l : List Char) (prev : Bool),
      allOccAux c prev l = true → c ∈ l → hdbAux c prev l = true := by
  intro l
  induction l with
  | nil => intro prev _ hm; cases hm
  | cons x xs ih =>
    intro prev ha hm
    rw [allOccAux, Bool.and_eq_true] at ha
    obtain ⟨h1, h2⟩ := ha
    rw [hdbAux, Bool.or_eq_true]
    by_cases hx : x = c
    · subst hx
      left
      rw [Bool.or_eq_true] at h1
      rcases h1 with h1 | h1
      · simp at h1
      · rw [h1]
        simp
    · right
      rcases List.mem_cons.mp hm with hm | hm
      · exact absurd hm.symm hx
      · exact ih x.isDigit h2 hm

/-- A failing extraction of `c`: `c` occurs but no occurrence has a digit
before it. -/
theorem compVal_eq_none {c : Char} {l : List Char} (hc : c.isDigit = false)
    (hmem : c ∈ l) (hno : hasDigitBefore c l = false) :
    compVal c l = none := by
  unfold compVal
  rw [if_pos hmem]
  have h := scanRun_isSome hc l []
  simp only [List.isEmpty_nil, Bool.not_true] at h
  rw [hasDigitBefore] at hno
  rw [hno] at h
  have : findGroup c l = none := by
    rw [findGroup]
    exact Option.not_isSome_iff_eq_none.mp (by simp [h])
  rw [this]
  rfl

/-- A succeeding extraction of `c`: every occurrence of `c` (if any) has a
digit before it. -/
theorem compVal_isSome {c : Char} {l : List Char} (hc : c.isDigit = false)
    (hall : allOccPreceded c l = true) : (compVal c l).isSome = true := by
  unfold compVal
  by_cases hmem : c ∈ l
  · rw [if_pos hmem]
    have hdb : hdbAux c false l = true :=
      allOccAux_mem_hdbAux l false hall hmem
    have h := scanRun_isSome hc l []
    simp only [List.isEmpty_nil, Bool.not_true] at h
    rw [hdb] at h
    rw [findGroup]
    cases hg : scanRun c [] l with
    | none => rw [hg] at h; cases h
    | some g => rfl
  · rw [if_neg hmem]
    rfl

/-- C10: `format_duration` is total exactly on the inputs where each of
`H`, `M`, `S` that occurs is immediately preceded by at least one digit:
such inputs produce a string, while an input containing one of the three
letters with no digit directly before any of its occurrences makes the
extraction fail and the function raises instead of returning. -/
theorem c10_format_duration_domain :
    (∀ s : String,
        allOccPreceded 'H' s.data = true → allOccPreceded 'M' s.data = true →
        allOccPreceded 'S' s.data = true →
        (format_duration s).isSome = true) ∧
    (∀ s : String,
        (('H' ∈ s.data ∧ hasDigitBefore 'H' s.data = false) ∨
         ('M' ∈ s.data ∧ hasDigitBefore 'M' s.data = false) ∨
         ('S' ∈ s.data ∧ hasDigitBefore 'S' s.data = false)) →
        format_duration s = none) := by
  constructor
  · intro s hH hM hS
    obtain ⟨h, hh⟩ := Option.isSome_iff_exists.mp (compVal_isSome (by decide) hH)
    obtain ⟨m, hm⟩ := Option.isSome_iff_exists.mp (compVal_isSome (by decide) hM)
    obtain ⟨sec, hs⟩ := Option.isSome_iff_exists.mp (compVal_isSome (by decide) hS)
    unfold format_duration
    rw [hh, hm, hs]
    rfl
  · intro s hcase
    rcases hcase with ⟨hmem, hno⟩ | ⟨hmem, hno⟩ | ⟨hmem, hno⟩
    · have h := compVal_eq_none (by decide) hmem hno
      cases hM : compVal 'M' s.data <;> cases hS : compVal 'S' s.data <;>
        simp [format_duration, h, hM, hS]
    · have h := compVal_eq_none (by decide) hmem hno
      cases hH : compVal 'H' s.data <;> cases hS : compVal 'S' s.data <;>
        simp [format_duration, h, hH, hS]
    · have h := compVal_eq_none (by decide) hmem hno
      cases hH : compVal 'H' s.data <;> cases hM : compVal 'M' s.data <;>
        simp [format_duration, h, hH, hM]

/-- C10 witness: a well-formed duration is rendered; the malformed `PTH`
(an `H` preceded by no digit) makes the function raise. -/
theorem c10_witness :
    (format_duration "PT1H2M3S").isSome = true ∧
    format_duration "PTH" = none :=
  ⟨c10_format_duration_domain.1 "PT1H2M3S" (by decide) (by decide) (by decide),
   c10_format_duration_domain.2 "PTH" (Or.inl ⟨by decide, by decide⟩)⟩

/-! ## Purity of the formatters (claim C4)

To state independence from external state, each formatter invocation is
given the ambient `World` it runs in.  The bodies of `format_count` and
`format_duration` read nothing from it; the body of
`format_published_date` calls `datetime.utcnow()`, i.e. reads the clock of
its world. -/

/-- The external state a formatter invocation runs in: the current UTC
clock (in epoch seconds). -/
structure World where
  utcnow : ℤ
deriving DecidableEq

/-- An invocation of `format_count` in an ambient world (the source body
reads no external state). -/
def format_count_call (n : ℕ) (_w : World) : String := format_count n

/-- An invocation of `format_duration` in an ambient world (the source
body reads no external state). -/
def format_duration_call (s : String) (_w : World) : Option String :=
  format_duration s

/-- An invocation of `format_published_date` in an ambient world: the
source body calls `datetime.utcnow()`, reading the clock of the world it
runs in. -/
def format_published_date_call (published : ℤ) (w : World) : String :=
  format_published_date published w.utcnow

/-- C4 counterexample: two calls of `format_published_date` with equal
argument (the parsed timestamp `0`) return different strings under
different current clocks (400 days later vs. 10 seconds later) — the
formatter is not independent of the current clock, refuting the claim as
stated. -/
theorem c4_counterexample :
    format_published_date_call 0 ⟨34560000⟩ ≠ format_published_date_call 0 ⟨10⟩ := by
  decide

/-- C4 (amended): `format_count` and `format_duration` are pure and
deterministic — equal arguments give equal results in any two worlds,
independent of the clock; `format_published_date` is deterministic in the
pair of its timestamp argument and the current clock: two calls with
equal argument made at equal clock readings return equal strings, but its
result does depend on the clock it reads. -/
theorem c4_formatters_pure_amended :
    (∀ (n : ℕ) (w w' : World), format_count_call n w = format_count_call n w') ∧
    (∀ (s : String) (w w' : World),
        format_duration_call s w = format_duration_call s w') ∧
    (∀ (p : ℤ) (w w' : World), w.utcnow = w'.utcnow →
        format_published_date_call p w = format_published_date_call p w') := by
  refine ⟨fun _ _ _ => rfl, fun _ _ _ => rfl, ?_⟩
  intro p w w' h
  unfold format_published_date_call
  rw [h]

/-- C4 witness: the amended purity applied at concrete arguments and
worlds. -/
theorem c4_witness :
    format_count_call 5 ⟨1⟩ = format_count_call 5 ⟨2⟩ ∧
    format_duration_call "PT1S" ⟨1⟩ = format_duration_call "PT1S" ⟨2⟩ ∧
    ((World.mk 100).utcnow = (World.mk 100).utcnow ∧
      format_published_date_call 7 ⟨100⟩ = format_published_date_call 7 ⟨100⟩) :=
  ⟨c4_formatters_pure_amended.1 5 ⟨1⟩ ⟨2⟩,
   c4_formatters_pure_amended.2.1 "PT1S" ⟨1⟩ ⟨2⟩,
   rfl, c4_formatters_pure_amended.2.2 7 ⟨100⟩ ⟨100⟩ rfl⟩

end YT
